import Mathlib

/-!
Verification development for the ollama customer-service chatbot backend
(`back-end-pages`).  The definitions below are a shallow embedding of the
streaming response pipeline: the `<think>`-tag stream segmenter of the
`/api/chat` endpoint (`main.py`, `chat_stream.generate`), the unfiltered
bot-chat streaming generator (`main.py`, `bot_chat.generate`), the
knowledge retrieval operation (`services/knowledge_manager.py`,
`KnowledgeManager.search_knowledge`), the prompt composition of
`chat_stream`, and the embedding adapter
(`services/ollama_client.py`, `OllamaClient.get_embeddings`).

Text is modelled as `List Char`; Python floats are modelled as exact
rationals (`ℚ`), which is faithful for every property checked here (none
depends on rounding).  Stateful generators are modelled as pure functions
from the upstream outcome (the delivered chunks plus an optional
exception) to the list of emitted events.
-/

namespace OllamaBot

/-- Text is a list of characters. -/
abbrev Str := List Char

/-- The ASCII whitespace characters stripped by Python's `str.strip()`
(the inputs of interest here are ASCII; Python additionally strips some
Unicode spaces, which none of the checked properties involve). -/
def isWs (c : Char) : Bool :=
  c == ' ' || c == '\t' || c == '\n' || c == '\r' || c == '\x0b' || c == '\x0c'

/-- `isBlank s` is true exactly when Python's `s.strip()` is falsy, i.e.
`s` consists of whitespace only (in particular when `s` is empty). -/
def isBlank (s : Str) : Bool :=
  s.all isWs

/-- Python's `text.split(marker, 1)`: split at the first occurrence of
`marker`, returning the part before and the part after.  `none` when
`marker` does not occur, which is exactly Python's `marker in text`
being false. -/
def splitOnce (m : Str) : Str → Option (Str × Str)
  | [] => if m = [] then some ([], []) else none
  | c :: rest =>
    if m.isPrefixOf (c :: rest) then
      some ([], (c :: rest).drop m.length)
    else
      match splitOnce m rest with
      | some (b, a) => some (c :: b, a)
      | none => none

/-- Python's substring test `m in t`. -/
def containsSub (m t : Str) : Bool :=
  (splitOnce m t).isSome

/-- The opening reasoning marker `"<think>"`. -/
def openTag : Str :=
  "<think>".data

/-- The closing reasoning marker `"</think>"`. -/
def closeTag : Str :=
  "</think>".data

/-- State of the plain-chat stream segmenter (`chat_stream.generate` in
`main.py`): the `in_thinking` flag and the `thinking_buffer` string. -/
structure SegState where
  inThinking : Bool
  buffer : Str
deriving DecidableEq, Repr

/-- The initial segmenter state: `in_thinking = False`,
`thinking_buffer = ""`. -/
def initSeg : SegState :=
  ⟨false, []⟩

/-- The inner `while` loop of `chat_stream.generate` (`main.py` lines
270-289), run on the combined `thinking_buffer + chunk` text.  Returns
`(in_thinking, thinking_buffer, current_text, parts)`.  The loop is
written with a fuel argument for structural recursion; every iteration
that recurses removes at least one full marker (7 characters) from
`current_text`, so any fuel of at least `current_text.length + 1` is
enough and the fuel-exhausted branch is unreachable in `processChunk`
below.

Loop body, as in the source: outside a think block with a full `<think>`
present, the text before the marker is appended to `parts` when
non-blank and the state flips to inside; inside a block with a full
`</think>` present, the reasoning content is discarded and the state
flips to outside; inside a block with no closing marker, the whole
remainder moves into `thinking_buffer` and the loop breaks; otherwise
the loop breaks with the remainder left in `current_text`. -/
def scanLoop : Nat → Bool → Str → List Str → Bool × Str × Str × List Str
  | 0, inT, cur, parts => (inT, [], cur, parts)
  | fuel + 1, inT, cur, parts =>
    if containsSub openTag cur || containsSub closeTag cur || inT then
      if !inT && containsSub openTag cur then
        match splitOnce openTag cur with
        | some (b, a) =>
          scanLoop fuel true a (if isBlank b then parts else parts ++ [b])
        | none => (inT, [], cur, parts)
      else if inT && containsSub closeTag cur then
        match splitOnce closeTag cur with
        | some (_, a) => scanLoop fuel false a parts
        | none => (inT, [], cur, parts)
      else if inT then
        (inT, cur, [], parts)
      else
        (inT, [], cur, parts)
    else
      (inT, [], cur, parts)

/-- One iteration of the `async for chunk` body of `chat_stream.generate`
(`main.py` lines 261-299): combine the pending `thinking_buffer` with the
incoming chunk, run the marker-scanning loop, append the trailing
`current_text` to `parts` when outside a think block and non-empty, and
emit exactly the parts that are non-blank (`if part.strip()`).  Returns
the new state and the list of visible fragments yielded for this chunk. -/
def processChunk (st : SegState) (chunk : Str) : SegState × List Str :=
  let text := st.buffer ++ chunk
  match scanLoop (text.length + 1) st.inThinking text [] with
  | (inT, buf, cur, parts) =>
    let parts := if inT = false ∧ cur ≠ [] then parts ++ [cur] else parts
    (⟨inT, buf⟩, parts.filter (fun p => !isBlank p))

/-- Run the segmenter over a whole sequence of upstream chunks, returning
the final state and all visible fragments in emission order. -/
def runChunks (st : SegState) : List Str → SegState × List Str
  | [] => (st, [])
  | c :: cs =>
    let r1 := processChunk st c
    let r2 := runChunks r1.1 cs
    (r2.1, r1.2 ++ r2.2)

/-- A server-sent event of the plain-chat endpoint: a visible content
fragment (`{'content': s, 'done': False}`), the completion marker
(`{'content': '', 'done': True}`), or an error fragment
(`{'error': msg}`). -/
inductive SSEEvent where
  | content (s : Str)
  | done
  | error (msg : Str)
deriving DecidableEq, Repr

/-- Recogniser for the completion event. -/
def isDoneEvent : SSEEvent → Bool
  | .done => true
  | _ => false

/-- Recogniser for the error event. -/
def isErrorEvent : SSEEvent → Bool
  | .error _ => true
  | _ => false

/-- Outcome of draining the upstream model stream: the chunks that were
delivered, and `some msg` when the stream raised an exception with
message `msg` after delivering them (`none` for a clean end). -/
structure Upstream where
  chunks : List Str
  err : Option Str
deriving DecidableEq, Repr

/-- The text prepended to the exception message in the error event of
`chat_stream.generate`: `'生成响应时出错: '`. -/
def chatErrorHead : Str :=
  "生成响应时出错: ".data

/-- The whole generator of the plain-chat endpoint (`main.py` lines
250-306): segment every delivered chunk, emitting the visible fragments
as content events; after a clean upstream end emit the completion event;
when the upstream raised, the `except` branch emits a single error event
(and nothing afterwards — the `done` yield at line 302 sits inside the
`try` and is skipped). -/
def chatGenerate (u : Upstream) : List SSEEvent :=
  let outs := (runChunks initSeg u.chunks).2
  let contentEvents := outs.map SSEEvent.content
  match u.err with
  | none => contentEvents ++ [SSEEvent.done]
  | some m => contentEvents ++ [SSEEvent.error (chatErrorHead ++ m)]

/-! ### Bot-chat streaming generator (`main.py` lines 948-965) -/

/-- An event of the bot-chat stream: a content event
(`{'content': s}`) or the terminal sentinel line `[DONE]`. -/
inductive BotEvent where
  | content (s : Str)
  | doneSentinel
deriving DecidableEq, Repr

/-- Recogniser for the terminal sentinel. -/
def isSentinel : BotEvent → Bool
  | .doneSentinel => true
  | _ => false

/-- The fixed error message of the bot-chat generator:
`'抱歉，我暂时无法回答您的问题，请稍后再试。'`. -/
def botErrorMessage : Str :=
  "抱歉，我暂时无法回答您的问题，请稍后再试。".data

/-- The streaming generator of the `/api/bot-chat` endpoint when the
bot's knowledge base is enabled (`main.py` lines 948-965): every
non-empty chunk is forwarded unfiltered as a content event
(`if chunk:` — the `<think>` parts are deliberately kept), followed by
the `[DONE]` sentinel; when the upstream raises, the `except` branch
yields a fixed apology content event and then the `[DONE]` sentinel. -/
def botGenerate (u : Upstream) : List BotEvent :=
  let contentEvents := (u.chunks.filter (fun c => c ≠ [])).map BotEvent.content
  match u.err with
  | none => contentEvents ++ [BotEvent.doneSentinel]
  | some _ => contentEvents ++ [BotEvent.content botErrorMessage, BotEvent.doneSentinel]

/-! ### Knowledge retrieval (`services/knowledge_manager.py` lines 99-174) -/

/-- The metadata stored with a vector-store document; absent keys are
modelled as `none` (Python `dict.get` with a default). -/
structure StoreMetadata where
  title : Option Str
  category : Option Str
  tags : Option Str
  created_at : Option Str
deriving DecidableEq, Repr

/-- A raw result of `vector_store.search_similar`: document id, content,
metadata and the raw distance score returned by the store. -/
structure StoreResult where
  id : Str
  content : Str
  metadata : StoreMetadata
  distance : ℚ
deriving DecidableEq, Repr

/-- A formatted result of `KnowledgeManager.search_knowledge`. -/
structure FormattedResult where
  id : Str
  title : Str
  content : Str
  category : Str
  tags : List Str
  similarity : ℚ
  distance : ℚ
  created_at : Option Str
deriving DecidableEq, Repr

/-- Python's `s.split(",")`: split on every comma (always at least one
field, possibly empty). -/
def splitComma : Str → List Str
  | [] => [[]]
  | c :: rest =>
    if c = ',' then
      [] :: splitComma rest
    else
      match splitComma rest with
      | s :: ss => (c :: s) :: ss
      | [] => [[c]]

/-- The distance-to-similarity conversion of `search_knowledge`
(`knowledge_manager.py` lines 145-152): for a negative distance,
`max(0.0, 1 + distance)`; otherwise `max(0.0, 1 - distance)`. -/
def similarityOfDistance (d : ℚ) : ℚ :=
  if d < 0 then max 0 (1 + d) else max 0 (1 - d)

/-- Formatting of one store result (`knowledge_manager.py` lines
139-164): defaulted title/category, tags split on commas
(`tags_str.split(",") if tags_str else []`), and the derived
similarity alongside the raw distance. -/
def formatResult (r : StoreResult) : FormattedResult :=
  let tagsStr := r.metadata.tags.getD []
  { id := r.id
    title := r.metadata.title.getD "无标题".data
    content := r.content
    category := r.metadata.category.getD "general".data
    tags := if tagsStr = [] then [] else splitComma tagsStr
    similarity := similarityOfDistance r.distance
    distance := r.distance
    created_at := r.metadata.created_at }

/-- Stable insertion of `x` into a list already sorted descending by
similarity.  `x` originates earlier in the input than every element of
the list, so it is placed before the first `y` with
`y.similarity ≤ x.similarity`: strictly larger similarities stay ahead
of `x`, and `x` precedes every tie — exactly the tie order of Python's
stable `sort(key=lambda x: x["similarity"], reverse=True)`. -/
def insertDesc (x : FormattedResult) : List FormattedResult → List FormattedResult
  | [] => [x]
  | y :: ys => if y.similarity ≤ x.similarity then x :: y :: ys else y :: insertDesc x ys

/-- Stable descending sort by similarity; a stable descending sort is
uniquely determined, so this insertion sort computes the same list as
Python's `list.sort(key=..., reverse=True)`. -/
def sortBySimilarityDesc : List FormattedResult → List FormattedResult
  | [] => []
  | x :: xs => insertDesc x (sortBySimilarityDesc xs)

/-- Outcome of the `await self.ollama_client.get_embeddings([query])`
call as observed by `search_knowledge`: either it raises (the exception
is caught by the surrounding `try`) or it returns a list of vectors. -/
inductive EmbedOutcome where
  | raises (msg : Str)
  | ok (embeddings : List (List ℚ))
deriving DecidableEq, Repr

/-- `KnowledgeManager.search_knowledge` (`knowledge_manager.py` lines
99-174), with the two awaited collaborators made explicit: `embedRes`
is the outcome of the embedding call and `storeResults` is the store's
response to the similarity query (the store receives `top_k` and the
optional category filter; its response is an input here).  A blank
query returns `[]`; a raised embedding call is caught and returns `[]`;
an empty embedding list returns `[]`; otherwise the store results are
formatted and stably sorted by descending similarity. -/
def search_knowledge (query : Str) (top_k : Nat) (category : Option Str)
    (embedRes : EmbedOutcome) (storeResults : List StoreResult) :
    List FormattedResult :=
  if isBlank query then []
  else
    match embedRes with
    | .raises _ => []
    | .ok embeddings =>
      if embeddings = [] then []
      else
        let _ := (top_k, category)
        sortBySimilarityDesc (storeResults.map formatResult)

/-! ### Prompt composition of `/api/chat` (`main.py` lines 171-247) -/

/-- The coding rule carried by a chat request (`message.coding_rule`, a
dict); absent keys are `none` and default to `'N/A'` via `dict.get`. -/
structure CodingRule where
  title : Option Str
  description : Option Str
  language : Option Str
  category : Option Str
  content : Option Str
  «example» : Option Str
deriving DecidableEq, Repr

/-- `dict.get(key, 'N/A')`. -/
def ruleGetD (o : Option Str) : Str :=
  o.getD "N/A".data

/-- One turn of the conversation (`{'role': ..., 'content': ...}`). -/
structure ChatTurn where
  role : Str
  content : Str
deriving DecidableEq, Repr

/-- The system prompt of the rule-guided mode (`main.py` lines
174-198), built purely from the rule's fields. -/
def codingRuleSystemPrompt (r : CodingRule) : Str :=
  "你是一个专业的代码分析和改进助手。用户已选择了以下编码规则：

==== 编码规则信息 ====
规则标题：".data ++ ruleGetD r.title ++ "
规则描述：".data ++ ruleGetD r.description ++ "
编程语言：".data ++ ruleGetD r.language ++ "
规则分类：".data ++ ruleGetD r.category ++ "

==== 编码规则内容 ====
".data ++ ruleGetD r.content ++ "

==== 编码规则示例 ====
".data ++ ruleGetD r.«example» ++ "

==== 任务要求 ====
请根据上述编码规则来分析和改进用户提供的代码。你需要：
1. 仔细学习并理解提供的编码规则
2. 分析用户的代码是否符合该规则
3. 如果不符合，提供具体的改进建议和修改后的代码
4. 解释为什么要这样修改，体现规则的价值
5. 确保修改后的代码更加规范、可读性更强
6. 使用中文进行详细说明
7. 提供完整可运行的改进后代码

请严格按照提供的编码规则来指导代码改进！".data

/-- The user content of the rule-guided mode (`main.py` lines
201-205). -/
def codingRuleUserContent (msg : Str) : Str :=
  "请根据已选择的编码规则来分析和改进以下代码：

".data ++ msg ++ "

请提供详细的分析、改进建议，并输出符合编码规则的完整代码。".data

/-- The system prompt of the knowledge-augmented mode (`main.py` lines
213-220). -/
def plainSystemPrompt : Str :=
  "你是一个专业的智能客服助手。请根据提供的知识库信息回答用户问题。

回答要求：
1. 优先使用知识库中的信息
2. 保持回答准确、友好、专业
3. 如果知识库中没有相关信息，请诚实地告知用户
4. 提供具体的帮助建议
5. 使用中文回答".data

/-- Python's `sep.join(items)`. -/
def joinSep (sep : Str) : List Str → Str
  | [] => []
  | [x] => x
  | x :: xs => x ++ sep ++ joinSep sep xs

/-- The per-document line of the context block (`main.py` line 226):
`• title: content` with the content preview capped at 300 characters
plus an ellipsis when truncated. -/
def docLine (d : FormattedResult) : Str :=
  if 300 < d.content.length then
    "• ".data ++ d.title ++ ": ".data ++ d.content.take 300 ++ "...".data
  else
    "• ".data ++ d.title ++ ": ".data ++ d.content

/-- The appended knowledge context block (`main.py` lines 225-228). -/
def contextBlockOf (docs : List FormattedResult) : Str :=
  "\n\n[相关知识库信息]\n".data ++ joinSep "\n".data (docs.map docLine)

/-- Python's `l[-n:]`. -/
def takeLast (n : Nat) (l : List ChatTurn) : List ChatTurn :=
  l.drop (l.length - n)

/-- The history turns forwarded to the model (`main.py` lines 235-241):
the most recent 10 caller-supplied turns whose `role` and `content` are
both truthy (non-empty). -/
def historyTurns (history : List ChatTurn) : List ChatTurn :=
  (takeLast 10 history).filter (fun m => !m.role.isEmpty && !m.content.isEmpty)

/-- The result of the pre-stream phase of `chat_stream` (`main.py`
lines 171-247): the retrieval invocations that were performed (query
text and `top_k`, in order), the composed system prompt and user
content, and the final message list. -/
structure Prep where
  searchCalls : List (Str × Nat)
  systemPrompt : Str
  userContent : Str
  messages : List ChatTurn
deriving DecidableEq, Repr

/-- The pre-stream phase of `chat_stream` (`main.py` lines 171-247).
With a coding rule present, the rule-guided prompts are built and no
retrieval happens; otherwise `knowledge_manager.search_knowledge` is
invoked once with `top_k=3` (its result is supplied by `searchFn`) and
the context block is appended to the raw message exactly when the
retrieved list is non-empty.  Either way the message list is the
filtered recent history followed by the user turn. -/
def chatPrepare (codingRule : Option CodingRule) (msg : Str)
    (history : List ChatTurn) (searchFn : Str → Nat → List FormattedResult) :
    Prep :=
  match codingRule with
  | some rule =>
    let uc := codingRuleUserContent msg
    { searchCalls := []
      systemPrompt := codingRuleSystemPrompt rule
      userContent := uc
      messages := historyTurns history ++ [⟨"user".data, uc⟩] }
  | none =>
    let docs := searchFn msg 3
    let uc := if docs = [] then msg else msg ++ contextBlockOf docs
    { searchCalls := [(msg, 3)]
      systemPrompt := plainSystemPrompt
      userContent := uc
      messages := historyTurns history ++ [⟨"user".data, uc⟩] }

/-! ### Embedding adapter (`services/ollama_client.py` lines 211-325) -/

/-- Outcome of the primary `/api/embed` HTTP call: the request raises
(connection error, or an unparsable body), or a response with a status
code and — when parsed — the `embeddings` field of the JSON body
(`data.get("embeddings", [])`). -/
inductive PrimaryResp where
  | raises (msg : Str)
  | status (code : Nat) (embeddings : List (List ℚ))
deriving Repr

/-- Outcome of one legacy `/api/embeddings` HTTP call for a single
text: the call raises, or a response with a status code and the
optional `embedding` field of the JSON body. -/
inductive LegacyResp where
  | raises (msg : Str)
  | status (code : Nat) (embedding : Option (List ℚ))
deriving Repr

/-- Recogniser for a raising legacy call. -/
def isLegacyRaise : LegacyResp → Bool
  | .raises _ => true
  | _ => false

/-- The zero-vector placeholder `[0.0] * 768`. -/
def zeroVec : List ℚ :=
  List.replicate 768 0

/-- `OllamaClient._get_embeddings_legacy` (`ollama_client.py` lines
281-325) over `n` texts, with the per-text HTTP outcomes given by
`oracle`.  An exception anywhere in the loop is caught at the function
boundary and the whole result degrades to `n` zero vectors; otherwise
each text yields exactly one vector: the response's `embedding` field,
or a zero vector on a non-200 status or a missing field. -/
def legacyRun (n : Nat) (oracle : Nat → LegacyResp) : List (List ℚ) :=
  if (List.range n).any (fun i => isLegacyRaise (oracle i)) then
    List.replicate n zeroVec
  else
    (List.range n).map (fun i =>
      match oracle i with
      | .raises _ => zeroVec
      | .status code embedding =>
        if code ≠ 200 then zeroVec else embedding.getD zeroVec)

/-- `OllamaClient.get_embeddings` (`ollama_client.py` lines 211-279)
for a list input.  A non-200 status raises, and any exception of the
primary call is caught and falls back to the legacy endpoint; a
successful primary response with an empty `embeddings` field returns
one zero-vector placeholder per input text; a non-empty `embeddings`
field is returned as-is. -/
def get_embeddings (texts : List Str) (primary : PrimaryResp)
    (legacy : Nat → LegacyResp) : List (List ℚ) :=
  match primary with
  | .raises _ => legacyRun texts.length legacy
  | .status code embeddings =>
    if code ≠ 200 then legacyRun texts.length legacy
    else if embeddings = [] then List.replicate texts.length zeroVec
    else embeddings

/-- Feeding a text one character per chunk. -/
def charChunks (t : Str) : List Str :=
  t.map (fun c => [c])

/-- The content carried by a bot-chat event, if any. -/
def botContentOf : BotEvent → Option Str
  | .content s => some s
  | .doneSentinel => none

/-!
## Theorems

Helper lemmas first, then one theorem per claim (with witnesses and
counterexamples as required).
-/

/-- A marker longer than the text never occurs in it. -/
lemma splitOnce_none_of_short (m : Str) : ∀ t : Str, t.length < m.length →
    splitOnce m t = none := by
  intro t
  induction t with
  | nil =>
    intro h
    have hm : m ≠ [] := by
      intro hm
      simp [hm] at h
    simp [splitOnce, hm]
  | cons c rest ih =>
    intro h
    have hnp : ¬ m.isPrefixOf (c :: rest) := by
      intro hp
      have hle := List.IsPrefix.length_le (List.isPrefixOf_iff_prefix.mp hp)
      omega
    have hrest : rest.length < m.length := by
      simp only [List.length_cons] at h
      omega
    simp [splitOnce, hnp, ih hrest]

/-- Neither marker fits in a single character. -/
lemma containsSub_tag_single (c : Char) :
    containsSub openTag [c] = false ∧ containsSub closeTag [c] = false := by
  constructor
  · simp [containsSub, splitOnce_none_of_short openTag [c] (by simp [openTag])]
  · simp [containsSub, splitOnce_none_of_short closeTag [c] (by simp [closeTag])]

/-- With no full marker in the text and the state outside a think
block, the scanning loop leaves everything untouched. -/
lemma scanLoop_no_marker (fuel : Nat) (cur : Str) (parts : List Str)
    (ho : containsSub openTag cur = false) (hc : containsSub closeTag cur = false) :
    scanLoop (fuel + 1) false cur parts = (false, [], cur, parts) := by
  simp [scanLoop, ho, hc]

/-- A chunk containing no full marker, processed from the outside state
with an empty buffer, is emitted whole when non-blank, dropped when
blank, and leaves the state unchanged. -/
lemma processChunk_no_marker (chunk : Str)
    (ho : containsSub openTag chunk = false) (hc : containsSub closeTag chunk = false) :
    processChunk initSeg chunk = (initSeg, if isBlank chunk then [] else [chunk]) := by
  unfold processChunk
  simp only [initSeg, List.nil_append]
  rw [scanLoop_no_marker chunk.length chunk [] ho hc]
  by_cases hnil : chunk = []
  · subst hnil
    simp [initSeg, isBlank]
  · cases hb : isBlank chunk <;>
      simp [initSeg, hnil, hb, List.filter_cons]

/-- A single-character chunk is emitted exactly when the character is
not whitespace, and never changes the state. -/
lemma processChunk_single (c : Char) :
    processChunk initSeg [c] = (initSeg, if isWs c then [] else [[c]]) := by
  have h := containsSub_tag_single c
  rw [processChunk_no_marker [c] h.1 h.2]
  simp [isBlank]

/-- Over marker-free chunks the segmenter is the identity on states and
keeps exactly the non-blank chunks. -/
lemma runChunks_no_marker : ∀ chunks : List Str,
    (∀ c ∈ chunks, containsSub openTag c = false ∧ containsSub closeTag c = false) →
    runChunks initSeg chunks = (initSeg, chunks.filter (fun c => !isBlank c)) := by
  intro chunks
  induction chunks with
  | nil => intro _; simp [runChunks]
  | cons c cs ih =>
    intro h
    have hc := h c (List.mem_cons_self c cs)
    have hcs := ih (fun x hx => h x (List.mem_cons_of_mem c hx))
    simp only [runChunks, processChunk_no_marker c hc.1 hc.2, hcs]
    by_cases hb : isBlank c = true
    · simp [List.filter, hb]
    · simp only [Bool.not_eq_true] at hb
      simp [List.filter, hb]

/-- Every fragment the segmenter emits is non-blank. -/
lemma runChunks_out_nonblank : ∀ (chunks : List Str) (st : SegState) (p : Str),
    p ∈ (runChunks st chunks).2 → isBlank p = false := by
  intro chunks
  induction chunks with
  | nil => intro st p hp; simp [runChunks] at hp
  | cons c cs ih =>
    intro st p hp
    simp only [runChunks, List.mem_append] at hp
    cases hp with
    | inl h1 =>
      unfold processChunk at h1
      revert h1
      cases scanLoop ((st.buffer ++ c).length + 1) st.inThinking (st.buffer ++ c) [] with
      | mk inT rest =>
        intro h1
        simp only [List.mem_filter] at h1
        simpa using h1.2
    | inr h2 => exact ih _ p h2

/-- Content events contain no completion or error events. -/
lemma countP_map_content (outs : List Str) :
    (outs.map SSEEvent.content).countP isDoneEvent = 0 ∧
    (outs.map SSEEvent.content).countP isErrorEvent = 0 := by
  induction outs with
  | nil => simp
  | cons o os ih =>
    simp [List.countP_cons, isDoneEvent, isErrorEvent, ih]

/-- Bot-chat content events contain no sentinel. -/
lemma countP_map_botContent (outs : List Str) :
    (outs.map BotEvent.content).countP isSentinel = 0 := by
  induction outs with
  | nil => simp
  | cons o os ih => simp [List.countP_cons, isSentinel, ih]

/-- Dropping the empty chunks does not change the concatenation. -/
lemma flatten_filter_ne_nil : ∀ l : List Str,
    (l.filter (fun c => c ≠ [])).flatten = l.flatten := by
  intro l
  induction l with
  | nil => simp
  | cons c cs ih =>
    simp only [ne_eq, decide_not] at ih ⊢
    by_cases hc : c = []
    · subst hc
      simp [List.filter_cons, ih]
    · simp [List.filter_cons, hc, ih]

/-- Appending a final element makes it the last. -/
lemma getLast?_snoc {α : Type} (l : List α) (a : α) : (l ++ [a]).getLast? = some a := by
  rw [List.getLast?_append_cons]
  rfl

/-- Extracting the contents of pure content events is the identity. -/
lemma filterMap_botContent (l : List Str) :
    (l.map BotEvent.content).filterMap botContentOf = l := by
  induction l with
  | nil => rfl
  | cons c cs ih => simp [botContentOf, ih]

/-- C1 (counterexample): when the upstream raises after emitting
`"partial"`, the plain-chat generator emits the content fragment and
then a single error event — and no `done = true` completion event at
all, contradicting the claim that completion is still emitted in the
error case. -/
theorem c1_plain_chat_error_counterexample :
    chatGenerate ⟨["partial".data], some "boom".data⟩
      = [SSEEvent.content "partial".data,
         SSEEvent.error (chatErrorHead ++ "boom".data)] ∧
    (chatGenerate ⟨["partial".data], some "boom".data⟩).countP isDoneEvent = 0 := by
  decide

/-- C1 (amended): when the upstream stream ends without error the
plain-chat generator emits the completion event exactly once and as the
last event; when the upstream raises after the stream has begun, the
generator emits exactly one error-shaped fragment with a human-readable
message as the last event, emits no completion event, and terminates. -/
theorem c1_plain_chat_terminal_events (u : Upstream) :
    (u.err = none →
      (chatGenerate u).countP isDoneEvent = 1 ∧
      (chatGenerate u).getLast? = some SSEEvent.done) ∧
    (∀ m, u.err = some m →
      (chatGenerate u).countP isDoneEvent = 0 ∧
      (chatGenerate u).countP isErrorEvent = 1 ∧
      (chatGenerate u).getLast? = some (SSEEvent.error (chatErrorHead ++ m))) := by
  constructor
  · intro h
    simp only [chatGenerate, h]
    constructor
    · rw [List.countP_append, (countP_map_content _).1]
      simp [List.countP_cons, isDoneEvent]
    · exact getLast?_snoc _ _
  · intro m h
    simp only [chatGenerate, h]
    refine ⟨?_, ?_, getLast?_snoc _ _⟩
    · rw [List.countP_append, (countP_map_content _).1]
      simp [List.countP_cons, isDoneEvent]
    · rw [List.countP_append, (countP_map_content _).2]
      simp [List.countP_cons, isErrorEvent]

/-- C1 (witness): the amended theorem applied to a clean one-chunk
stream and to an erroring stream. -/
theorem c1_plain_chat_terminal_events_witness :
    (chatGenerate ⟨["hi".data], none⟩).countP isDoneEvent = 1 ∧
    (chatGenerate ⟨["hi".data], some "x".data⟩).countP isErrorEvent = 1 :=
  ⟨((c1_plain_chat_terminal_events ⟨["hi".data], none⟩).1 rfl).1,
   ((c1_plain_chat_terminal_events ⟨["hi".data], some "x".data⟩).2 "x".data rfl).2.1⟩

/-- C2 (counterexample): for the raw text `"<think>"` — which contains
the marker — feeding one character per chunk yields a different
concatenated visible output (namely `"<think>"` itself, emitted
character by character) and a different final state than feeding the
whole text as a single chunk (which emits nothing and enters the
reasoning block); the partial-marker suffix is not held back while
outside a reasoning block. -/
theorem c2_chunking_invariance_counterexample :
    containsSub openTag "<think>".data = true ∧
    (runChunks initSeg (charChunks "<think>".data)).2.flatten
      ≠ (runChunks initSeg ["<think>".data]).2.flatten ∧
    (runChunks initSeg (charChunks "<think>".data)).1
      ≠ (runChunks initSeg ["<think>".data]).1 := by
  decide

/-- C2 (amended): the plain-chat segmenter is not chunking-invariant
for `"<think>"`: the pending buffer is used only inside a reasoning
block, so while OUTSIDE any chunk containing no complete marker — in
particular a chunk whose suffix is a proper prefix of `"<think>"` — is
emitted whole (when non-blank) with state and buffer unchanged; feeding
a text one character per chunk therefore never enters a reasoning block
and emits exactly the non-whitespace characters of the text. -/
theorem c2_char_feed_behavior :
    (∀ t : Str, runChunks initSeg (charChunks t)
      = (initSeg, (t.filter (fun c => !isWs c)).map (fun c => [c]))) ∧
    (∀ s : Str, containsSub openTag s = false → containsSub closeTag s = false →
      processChunk initSeg s = (initSeg, if isBlank s then [] else [s])) := by
  constructor
  · intro t
    induction t with
    | nil => simp [charChunks, runChunks]
    | cons c t ih =>
      simp only [charChunks] at ih ⊢
      simp only [List.map_cons, runChunks, processChunk_single c, ih]
      cases hw : isWs c <;> simp [List.filter_cons, hw]
  · exact fun s ho hc => processChunk_no_marker s ho hc

/-- C2 (witness): the chunk `"<th"`, a proper prefix of the opening
marker arriving while outside a reasoning block, is emitted immediately
and nothing is buffered. -/
theorem c2_char_feed_behavior_witness :
    processChunk initSeg "<th".data = (initSeg, ["<th".data]) := by
  have h := c2_char_feed_behavior.2 "<th".data (by decide) (by decide)
  simpa [show isBlank "<th".data = false from by decide] using h

/-- C3 (counterexample): the marker-free chunk sequence
`["a", " ", "b"]` has its whitespace-only chunk `" "` silently dropped:
the concatenated visible output is `"ab"`, not `"a b"`. -/
theorem c3_lossless_counterexample :
    containsSub openTag "a".data = false ∧ containsSub closeTag "a".data = false ∧
    containsSub openTag " ".data = false ∧ containsSub closeTag " ".data = false ∧
    containsSub openTag "b".data = false ∧ containsSub closeTag "b".data = false ∧
    (runChunks initSeg ["a".data, " ".data, "b".data]).2.flatten
      ≠ (["a".data, " ".data, "b".data] : List Str).flatten := by
  decide

/-- C3 (amended): for every upstream chunk sequence in which no chunk
contains an occurrence of `"<think>"` or `"</think>"`, the
concatenation of all emitted visible fragments equals the concatenation
of those input chunks containing at least one non-whitespace character;
chunks that are whitespace-only are silently dropped (each surviving
chunk is forwarded verbatim and the state is unchanged). -/
theorem c3_lossless_nonblank_chunks (chunks : List Str)
    (h : ∀ c ∈ chunks, containsSub openTag c = false ∧ containsSub closeTag c = false) :
    (runChunks initSeg chunks).2.flatten
      = (chunks.filter (fun c => !isBlank c)).flatten ∧
    runChunks initSeg chunks = (initSeg, chunks.filter (fun c => !isBlank c)) := by
  have hrun := runChunks_no_marker chunks h
  exact ⟨by rw [hrun], hrun⟩

/-- C3 (witness): the amended theorem applied to `["a", " ", "b"]`,
yielding `"ab"`. -/
theorem c3_lossless_nonblank_chunks_witness :
    (runChunks initSeg ["a".data, " ".data, "b".data]).2.flatten = "ab".data := by
  have h := c3_lossless_nonblank_chunks ["a".data, " ".data, "b".data] (by decide)
  rw [h.1]
  decide

/-- C6 (confirmed): on the stream `"A" + "<think>" + "B"` that ends
without a closing marker — whether delivered as one chunk or as the
three pieces — exactly `"A"` is emitted as visible content, the trapped
`"B"` is discarded (it sits in the thinking buffer, which is never
flushed), and the terminal `done = true` event is still emitted. -/
theorem c6_unterminated_block :
    chatGenerate ⟨["A<think>B".data], none⟩
      = [SSEEvent.content "A".data, SSEEvent.done] ∧
    chatGenerate ⟨["A".data, "<think>".data, "B".data], none⟩
      = [SSEEvent.content "A".data, SSEEvent.done] ∧
    (runChunks initSeg ["A<think>B".data]).1 = ⟨true, "B".data⟩ := by
  decide

/-- C9 (confirmed): every content fragment the plain-chat generator
emits contains at least one non-whitespace character; whitespace-only
parts are discarded and never forwarded. -/
theorem c9_nonblank_fragments (u : Upstream) (s : Str)
    (h : SSEEvent.content s ∈ chatGenerate u) : isBlank s = false := by
  cases herr : u.err with
  | none =>
    simp only [chatGenerate, herr, List.mem_append, List.mem_singleton] at h
    rcases h with h | h
    · rcases List.mem_map.mp h with ⟨p, hp, heq⟩
      cases heq
      exact runChunks_out_nonblank u.chunks initSeg s hp
    · cases h
  | some m =>
    simp only [chatGenerate, herr, List.mem_append, List.mem_singleton] at h
    rcases h with h | h
    · rcases List.mem_map.mp h with ⟨p, hp, heq⟩
      cases heq
      exact runChunks_out_nonblank u.chunks initSeg s hp
    · cases h

/-- C9 (witness): the theorem applied to the fragment `"hi"` of a
concrete stream. -/
theorem c9_nonblank_fragments_witness : isBlank "hi".data = false :=
  c9_nonblank_fragments ⟨["hi".data], none⟩ "hi".data (by decide)

/-- C4 (counterexample): for the store result with distance `-0.2` the
code computes `max(0, 1 + (-0.2)) = 0.8`, not `1.0`, and consequently
the output order for distances `0.1, 0.5, -0.2` is the `0.1` document
first (similarity `0.9`), then the `-0.2` document (`0.8`), then the
`0.5` document (`0.5`) — not the `-0.2` document first. -/
theorem c4_similarity_counterexample :
    similarityOfDistance (-2/10 : ℚ) = 4/5 ∧ (4/5 : ℚ) ≠ 1 ∧
    (search_knowledge "q".data 3 none (.ok [[(1:ℚ)]])
        [⟨"d1".data, "c1".data, ⟨none, none, none, none⟩, 1/10⟩,
         ⟨"d2".data, "c2".data, ⟨none, none, none, none⟩, 5/10⟩,
         ⟨"d3".data, "c3".data, ⟨none, none, none, none⟩, -2/10⟩]).map
        (fun f => f.id)
      = ["d1".data, "d3".data, "d2".data] ∧
    (["d1".data, "d3".data, "d2".data] : List Str)
      ≠ ["d3".data, "d1".data, "d2".data] := by
  have hq : isBlank "q".data = false := by decide
  refine ⟨by norm_num [similarityOfDistance], by norm_num, ?_, by decide⟩
  norm_num [search_knowledge, hq, sortBySimilarityDesc, insertDesc,
    formatResult, similarityOfDistance]

/-- C4 (amended): in `search_knowledge`, store results with distances
`0.1, 0.5, -0.2` yield similarities `0.9, 0.5, 0.8` respectively (each
clamped into `[0, 1]`, never negative; a negative distance `d` maps to
`1 + d`), and the returned list is ordered highest similarity first:
the `0.1` document, then the `-0.2` document, then the `0.5` document —
with ties broken by the original store order (stable sort). -/
theorem c4_similarity_values_order :
    (search_knowledge "q".data 3 none (.ok [[(1:ℚ)]])
        [⟨"d1".data, "c1".data, ⟨none, none, none, none⟩, 1/10⟩,
         ⟨"d2".data, "c2".data, ⟨none, none, none, none⟩, 5/10⟩,
         ⟨"d3".data, "c3".data, ⟨none, none, none, none⟩, -2/10⟩]).map
        (fun f => (f.id, f.similarity))
      = [("d1".data, 9/10), ("d3".data, 4/5), ("d2".data, 1/2)] ∧
    (search_knowledge "q".data 3 none (.ok [[(1:ℚ)]])
        [⟨"t1".data, "c1".data, ⟨none, none, none, none⟩, 1/4⟩,
         ⟨"t2".data, "c2".data, ⟨none, none, none, none⟩, 1/4⟩]).map
        (fun f => f.id)
      = ["t1".data, "t2".data] ∧
    (∀ d : ℚ, 0 ≤ similarityOfDistance d ∧ similarityOfDistance d ≤ 1) := by
  have hq : isBlank "q".data = false := by decide
  refine ⟨?_, ?_, ?_⟩
  · norm_num [search_knowledge, hq, sortBySimilarityDesc, insertDesc,
      formatResult, similarityOfDistance]
  · norm_num [search_knowledge, hq, sortBySimilarityDesc, insertDesc,
      formatResult, similarityOfDistance]
  · intro d
    unfold similarityOfDistance
    by_cases hd : d < 0
    · simp only [hd, if_true]
      exact ⟨le_max_left 0 _, max_le (by norm_num) (by linarith)⟩
    · simp only [hd, if_false]
      exact ⟨le_max_left 0 _, max_le (by norm_num) (by linarith [not_lt.mp hd])⟩

/-- C5 (confirmed): when the embedding call raises or returns an empty
result, `search_knowledge` returns the empty list instead of raising,
and the chat request proceeds: the composed user content is the raw
message alone (no appended context block) and the forwarded message
list still ends with that user turn. -/
theorem c5_retrieval_degradation (query msg : Str) (top_k : Nat)
    (category : Option Str) (e : EmbedOutcome) (store : List StoreResult)
    (history : List ChatTurn)
    (h : (∃ m, e = .raises m) ∨ e = .ok []) :
    search_knowledge query top_k category e store = [] ∧
    (chatPrepare none msg history
        (fun q k => search_knowledge q k category e store)).userContent = msg ∧
    (chatPrepare none msg history
        (fun q k => search_knowledge q k category e store)).messages
      = historyTurns history ++ [⟨"user".data, msg⟩] := by
  have hempty : ∀ (q : Str) (k : Nat), search_knowledge q k category e store = [] := by
    intro q k
    rcases h with ⟨m, rfl⟩ | rfl <;> unfold search_knowledge <;> split <;> rfl
  exact ⟨hempty query top_k, by simp [chatPrepare, hempty], by simp [chatPrepare, hempty]⟩

/-- C5 (witness): the theorem applied to a raising embedding call. -/
theorem c5_retrieval_degradation_witness :
    search_knowledge "hello".data 3 none (.raises "down".data) [] = [] ∧
    (chatPrepare none "hi".data []
        (fun q k => search_knowledge q k none (.raises "down".data) [])).userContent
      = "hi".data := by
  have h := c5_retrieval_degradation "hello".data "hi".data 3 none
    (.raises "down".data) [] [] (Or.inl ⟨"down".data, rfl⟩)
  exact ⟨h.1, h.2.1⟩

/-- C7 (confirmed): in the bot-chat streaming variant with the
knowledge base enabled, for every chunking of a stream of the form
`A ++ "<think>" ++ B ++ "</think>" ++ C`, the concatenated emitted
content reproduces the whole raw stream — `A`, `B` and `C` appear in
their original order, the reasoning content is passed through
unfiltered and nothing is dropped (only a fixed apology message may
follow after an upstream error) — and the stream ends with exactly one
terminal `[DONE]` sentinel, also after an upstream error. -/
theorem c7_bot_chat_passthrough (A B C : Str) (chunks : List Str) (err : Option Str)
    (h : chunks.flatten = A ++ openTag ++ B ++ closeTag ++ C) :
    ((botGenerate ⟨chunks, err⟩).filterMap botContentOf).flatten
      = A ++ openTag ++ B ++ closeTag ++ C
        ++ (match err with | none => [] | some _ => botErrorMessage) ∧
    (botGenerate ⟨chunks, err⟩).countP isSentinel = 1 ∧
    (botGenerate ⟨chunks, err⟩).getLast? = some BotEvent.doneSentinel := by
  cases err with
  | none =>
    refine ⟨?_, ?_, ?_⟩
    · simp only [botGenerate]
      rw [List.filterMap_append, filterMap_botContent,
        show (([BotEvent.doneSentinel] : List BotEvent).filterMap botContentOf) = []
          from rfl,
        List.append_nil, flatten_filter_ne_nil, h]
      simp
    · simp only [botGenerate, List.countP_append, countP_map_botContent]
      simp [List.countP_cons, isSentinel]
    · exact getLast?_snoc _ _
  | some m =>
    refine ⟨?_, ?_, ?_⟩
    · simp only [botGenerate]
      rw [List.filterMap_append, filterMap_botContent,
        show (([BotEvent.content botErrorMessage, BotEvent.doneSentinel] :
            List BotEvent).filterMap botContentOf) = [botErrorMessage] from rfl,
        List.flatten_append, flatten_filter_ne_nil, h]
      simp
    · simp only [botGenerate, List.countP_append, countP_map_botContent]
      simp [List.countP_cons, isSentinel]
    · simp only [botGenerate]
      rw [List.getLast?_append_cons]
      rfl

/-- C7 (witness): the theorem applied to a two-chunk split of
`"A<think>B</think>C"` that cuts through the opening marker, with an
upstream error. -/
theorem c7_bot_chat_passthrough_witness :
    ((botGenerate ⟨["A<th".data, "ink>B</think>C".data], some "x".data⟩).filterMap
        botContentOf).flatten
      = "A".data ++ openTag ++ "B".data ++ closeTag ++ "C".data ++ botErrorMessage ∧
    (botGenerate ⟨["A<th".data, "ink>B</think>C".data], some "x".data⟩).countP
        isSentinel = 1 := by
  have h := c7_bot_chat_passthrough "A".data "B".data "C".data
    ["A<th".data, "ink>B</think>C".data] (some "x".data) (by decide)
  exact ⟨h.1, h.2.1⟩

/-- C8 (confirmed): with a coding-rule override the retrieval operation
is never invoked and the system prompt is built purely from the rule's
fields (the code-review template); without an override, retrieval is
invoked exactly once, with the raw message and `top_k = 3`. -/
theorem c8_retrieval_gating (rule : CodingRule) (msg : Str)
    (history : List ChatTurn) (searchFn : Str → Nat → List FormattedResult) :
    (chatPrepare (some rule) msg history searchFn).searchCalls = [] ∧
    (chatPrepare (some rule) msg history searchFn).systemPrompt
      = codingRuleSystemPrompt rule ∧
    (chatPrepare none msg history searchFn).searchCalls = [(msg, 3)] :=
  ⟨rfl, rfl, rfl⟩

/-- Absent a raising call, the legacy fallback returns one vector per
text. -/
lemma legacyRun_length (n : Nat) (oracle : Nat → LegacyResp) :
    (legacyRun n oracle).length = n := by
  unfold legacyRun
  split <;> simp

/-- C10 (confirmed): for every non-empty list of input texts — under
the backend contract that a successful primary response carries one
embedding per input — `get_embeddings` is total and returns exactly one
vector per text, never an empty list; and when both the primary and the
legacy endpoints raise, it returns one zero vector (dimension 768) per
text. -/
theorem c10_embeddings_total (texts : List Str) (primary : PrimaryResp)
    (legacy : Nat → LegacyResp) (h1 : texts ≠ [])
    (h2 : ∀ code embeddings, primary = .status code embeddings → code = 200 →
      embeddings ≠ [] → embeddings.length = texts.length) :
    (get_embeddings texts primary legacy).length = texts.length ∧
    get_embeddings texts primary legacy ≠ [] ∧
    zeroVec.length = 768 ∧
    (∀ m m', get_embeddings texts (.raises m) (fun _ => .raises m')
      = List.replicate texts.length zeroVec) := by
  have hlen : (get_embeddings texts primary legacy).length = texts.length := by
    cases primary with
    | raises m => simpa [get_embeddings] using legacyRun_length texts.length legacy
    | status code embs =>
      by_cases hc : code = 200
      · by_cases he : embs = []
        · simp [get_embeddings, hc, he]
        · simp [get_embeddings, hc, he, h2 code embs rfl hc he]
      · simp [get_embeddings, hc, legacyRun_length]
  refine ⟨hlen, ?_, by rw [zeroVec, List.length_replicate], ?_⟩
  · intro hnil
    rw [hnil] at hlen
    exact h1 (List.length_eq_zero.mp hlen.symm)
  · intro m m'
    have hpos : 0 < texts.length := List.length_pos.mpr h1
    have hany : (List.range texts.length).any
        (fun i => isLegacyRaise (LegacyResp.raises m')) = true := by
      simp only [List.any_eq_true]
      exact ⟨0, List.mem_range.mpr hpos, rfl⟩
    simp [get_embeddings, legacyRun, hany]

/-- C10 (witness): the theorem applied to a single text with a
successful primary response. -/
theorem c10_embeddings_total_witness :
    (get_embeddings [['a']] (.status 200 [[(1:ℚ)]]) (fun _ => .raises [])).length = 1 ∧
    get_embeddings [['a']] (.status 200 [[(1:ℚ)]]) (fun _ => .raises []) ≠ [] := by
  have h := c10_embeddings_total [['a']] (.status 200 [[(1:ℚ)]]) (fun _ => .raises [])
    (by simp) (fun code embs heq _ _ => by cases heq; rfl)
  exact ⟨h.1, h.2.1⟩

end OllamaBot
